import Mathlib

/-!
Shallow embedding of the AIOps recommendation service (src/main.py):
alert extraction, cluster evidence gathering with failure isolation,
pod-state summarization, lexical runbook retrieval, and the /recommend
pipeline. Strings are modelled as lists of characters; Python falsiness
of strings and the `or` operator are modelled explicitly; network and
storage effects are modelled by an explicit per-request world record.
-/

namespace Aiops

abbrev Str := List Char

/-- ASCII lower-casing of one character (Python str.lower on ASCII input). -/
def lowerChar (c : Char) : Char :=
  if 65 ≤ c.toNat ∧ c.toNat ≤ 90 then Char.ofNat (c.toNat + 32) else c

def lower (s : Str) : Str := s.map lowerChar

/-- Membership in the regex character class [a-z0-9]. -/
def isTokChar (c : Char) : Bool :=
  (97 ≤ c.toNat && c.toNat ≤ 122) || (48 ≤ c.toNat && c.toNat ≤ 57)

/-- Scanner for maximal runs of token characters; `cur` is the reversed
run in progress. -/
def tokensAux : Str → Str → List Str
  | [], cur => if cur = [] then [] else [cur.reverse]
  | c :: rest, cur =>
    if isTokChar c then tokensAux rest (c :: cur)
    else if cur = [] then tokensAux rest [] else cur.reverse :: tokensAux rest []

/-- re.findall of [a-z0-9]+ over the lower-cased string. -/
def tokens (s : Str) : List Str := tokensAux (lower s) []

/-- The set of distinct tokens of a string. -/
def tokSet (s : Str) : Finset Str := (tokens s).toFinset

/-- Scanner for Python str.split of the two-character separator of two
newlines, greedy left to right. -/
def splitAux : Str → Str → List Str
  | [], cur => [cur.reverse]
  | '\n' :: '\n' :: rest, cur => cur.reverse :: splitAux rest []
  | c :: rest, cur => splitAux rest (c :: cur)

/-- runbooks.split of a blank line separator. -/
def splitOn2NL (s : Str) : List Str := splitAux s []

/-- Python `x or y` where x is an optional string: None and the empty
string are falsy. -/
def strOr (x : Option Str) (y : Str) : Str :=
  match x with
  | none => y
  | some s => if s = [] then y else s

/-- Passage score: size of the intersection of the query token set with
the passage token set. -/
def score (qt : Finset Str) (chunk : Str) : Nat := (qt ∩ tokSet chunk).card

/-- One step of the best-passage scan: keep the new chunk only when its
score strictly exceeds the best score so far. -/
def retrieveStep (qt : Finset Str) (acc : Str × Nat) (chunk : Str) : Str × Nat :=
  if acc.2 < score qt chunk then (chunk, score qt chunk) else acc

/-- Lexical runbook retrieval (src/main.py, retrieve). -/
def retrieve (runbooks q : Str) (max_chars : Nat) : Str :=
  let best := (splitOn2NL runbooks).foldl (retrieveStep (tokSet q)) ([], 0)
  if best.1 = [] then [] else best.1.take max_chars

/-! ### Alert payload and extraction -/

structure Labels where
  alertname : Option Str
  severity : Option Str
  nspace : Option Str
  kubernetes_namespace : Option Str
  pod : Option Str
  pod_name : Option Str
  deployment : Option Str
  kubernetes_deployment : Option Str
deriving DecidableEq

structure Annots where
  summary : Option Str
  description : Option Str
deriving DecidableEq

structure Alert where
  labels : Option Labels
  annotations : Option Annots
deriving DecidableEq

structure Payload where
  alerts : Option (List Alert)
deriving DecidableEq

def emptyLabels : Labels := ⟨none, none, none, none, none, none, none, none⟩

def emptyAnnots : Annots := ⟨none, none⟩

def emptyAlert : Alert := ⟨none, none⟩

structure AlertRecord where
  alertname : Str
  severity : Str
  nspace : Str
  pod : Str
  deployment : Str
  summary : Str
deriving DecidableEq

def unknownStr : Str := "unknown".toList

/-- Alert extraction (src/main.py, extract). A label absent from the
payload is `none`; dict.get with a default is `Option.getD`, while the
summary fallback chain uses the Python `or` of truthiness. -/
def extract (payload : Payload) : AlertRecord :=
  let alerts := payload.alerts.getD []
  let a := alerts.headD emptyAlert
  let labels := a.labels.getD emptyLabels
  let ann := a.annotations.getD emptyAnnots
  { alertname := labels.alertname.getD unknownStr
    severity := labels.severity.getD unknownStr
    nspace := labels.nspace.getD (labels.kubernetes_namespace.getD unknownStr)
    pod := labels.pod.getD (labels.pod_name.getD [])
    deployment := labels.deployment.getD (labels.kubernetes_deployment.getD [])
    summary := (strOr ann.summary (strOr ann.description [])).take 500 }

/-! ### Cluster objects -/

structure Waiting where
  reason : Option Str
  message : Option Str
deriving DecidableEq

structure Terminated where
  reason : Option Str
  exitCode : Option Nat
deriving DecidableEq

structure ContainerState where
  waiting : Option Waiting
  terminated : Option Terminated
deriving DecidableEq

structure ContainerStatus where
  name : Option Str
  restartCount : Option Nat
  state : Option ContainerState
  lastState : Option ContainerState
deriving DecidableEq

structure PodStatus where
  phase : Option Str
  containerStatuses : Option (List ContainerStatus)
deriving DecidableEq

structure PodObj where
  status : Option PodStatus
deriving DecidableEq

structure EventItem where
  type : Option Str
  reason : Option Str
  message : Option Str
  count : Option Nat
  lastTimestamp : Option Str
  eventTime : Option Str
  firstTimestamp : Option Str
deriving DecidableEq

structure EventsData where
  items : Option (List EventItem)
deriving DecidableEq

/-! ### Cluster evidence client under an explicit world -/

/-- One request's external environment: presence of the service-account
token, the outcome of each orchestration-API query (an error stands for
any network failure, timeout, non-2xx response or malformed body), the
runbook file content, the completion-service outcome, and whether the
storage layer works. -/
structure World where
  tokenPresent : Bool
  podResp : Except Unit PodObj
  eventsResp : Except Unit EventsData
  logsResp : Except Unit Str
  runbooks : Str
  completion : Except Str Str
  storeOk : Bool

/-- Authenticated GET against the orchestration API (src/main.py,
k8s_get): absent token or any request failure yields `none`. -/
def k8s_get (tokenPresent : Bool) (resp : Except Unit α) : Option α :=
  if tokenPresent then
    match resp with
    | .ok d => some d
    | .error _ => none
  else none

/-- src/main.py, fetch_pod. -/
def fetch_pod (w : World) (nspace pod : Str) : Option PodObj :=
  if nspace = [] ∨ pod = [] then none
  else k8s_get w.tokenPresent w.podResp

/-- Python string comparison: lexicographic on code points. -/
def strLe : Str → Str → Bool
  | [], _ => true
  | _ :: _, [] => false
  | a :: as, b :: bs =>
    if a.toNat < b.toNat then true
    else if b.toNat < a.toNat then false
    else strLe as bs

/-- The event sort key (src/main.py, fetch_pod_events, local ts):
lastTimestamp, falling back to eventTime, then firstTimestamp, else
the empty string. -/
def ts (e : EventItem) : Str :=
  strOr e.lastTimestamp (strOr e.eventTime (strOr e.firstTimestamp []))

/-- Descending recency order used by the in-place sort with reverse. -/
def evDesc (a b : EventItem) : Prop := strLe (ts b) (ts a) = true

instance : DecidableRel evDesc := fun a b => by unfold evDesc; infer_instance

structure EventRecord where
  type : Str
  reason : Str
  message : Str
  count : Nat
  lastTimestamp : Str
deriving DecidableEq

/-- Projection of one raw event item into the output record. -/
def mkEventRecord (e : EventItem) : EventRecord :=
  { type := e.type.getD []
    reason := e.reason.getD []
    message := (strOr e.message []).take 300
    count := e.count.getD 1
    lastTimestamp := ts e }

/-- src/main.py, fetch_pod_events. -/
def fetch_pod_events (w : World) (nspace pod : Str) (max_items : Nat) : List EventRecord :=
  if nspace = [] ∨ pod = [] then []
  else
    let data := k8s_get w.tokenPresent w.eventsResp
    let items := (data.getD ⟨none⟩).items.getD []
    let sorted := items.insertionSort evDesc
    (sorted.take max_items).map mkEventRecord

/-- src/main.py, fetch_pod_logs. -/
def fetch_pod_logs (w : World) (nspace pod : Str) (tail : Nat) : Str :=
  if nspace = [] ∨ pod = [] then []
  else if !w.tokenPresent then []
  else
    match w.logsResp with
    | .ok s => s.take 4000
    | .error _ => []

/-! ### Pod state summarizer -/

def emptyPodStatus : PodStatus := ⟨none, none⟩

def emptyContainerState : ContainerState := ⟨none, none⟩

def natStr (n : Nat) : Str := (Nat.repr n).toList

/-- Rendering of the exitCode field in an f-string: the number when the
key is present, the empty default otherwise. -/
def exitCodeStr (x : Option Nat) : Str :=
  match x with
  | none => []
  | some n => natStr n

/-- The list of summary lines built by src/main.py, summarize_pod, in
source order: each append mirrors one lines.append call. -/
def pod_lines (p : PodObj) : List Str :=
  let st := p.status.getD emptyPodStatus
  let cs := st.containerStatuses.getD []
  let lines := [ "phase=".toList ++ st.phase.getD [] ]
  match cs with
  | [] => lines
  | c0 :: _ =>
    let lines := lines ++ [ "container=".toList ++ c0.name.getD [] ]
    let lines := lines ++ [ "restartCount=".toList ++ natStr (c0.restartCount.getD 0) ]
    let state := c0.state.getD emptyContainerState
    let last := c0.lastState.getD emptyContainerState
    let lines :=
      match state.waiting with
      | some w =>
          lines ++ [ "state.waiting.reason=".toList ++ w.reason.getD [] ]
                ++ [ "state.waiting.message=".toList ++ (strOr w.message []).take 200 ]
      | none => lines
    let lines :=
      match state.terminated with
      | some t =>
          lines ++ [ "state.terminated.reason=".toList ++ t.reason.getD [] ]
                ++ [ "state.terminated.exitCode=".toList ++ exitCodeStr t.exitCode ]
      | none => lines
    let lines :=
      match last.terminated with
      | some t =>
          lines ++ [ "last.terminated.reason=".toList ++ t.reason.getD [] ]
                ++ [ "last.terminated.exitCode=".toList ++ exitCodeStr t.exitCode ]
      | none => lines
    lines

/-- src/main.py, summarize_pod: sentinel for an absent pod object,
otherwise the newline-joined lines truncated to 2000 characters. -/
def summarize_pod (pod_obj : Option PodObj) : Str :=
  match pod_obj with
  | none => "(pod not fetched)".toList
  | some p => (List.intercalate ('\n' :: []) (pod_lines p)).take 2000

/-- The summary's line list as the specification describes it (amended):
a fixed-order concatenation of blocks — the phase line, then, only when
a container status is reported, the container identity lines followed by
the waiting, terminated and last-terminated blocks, each present exactly
when its key is present in the state object. Scalar fields inside an
emitted block render with empty or default values when absent. -/
def pod_lines_spec (p : PodObj) : List Str :=
  let st := p.status.getD emptyPodStatus
  let phaseBlock := [ "phase=".toList ++ st.phase.getD [] ]
  let containerBlock :=
    match st.containerStatuses.getD [] with
    | [] => []
    | c0 :: _ =>
      let idBlock := [ "container=".toList ++ c0.name.getD [],
                       "restartCount=".toList ++ natStr (c0.restartCount.getD 0) ]
      let waitingBlock :=
        match (c0.state.getD emptyContainerState).waiting with
        | none => []
        | some w => [ "state.waiting.reason=".toList ++ w.reason.getD [],
                      "state.waiting.message=".toList ++ (strOr w.message []).take 200 ]
      let termBlock :=
        match (c0.state.getD emptyContainerState).terminated with
        | none => []
        | some t => [ "state.terminated.reason=".toList ++ t.reason.getD [],
                      "state.terminated.exitCode=".toList ++ exitCodeStr t.exitCode ]
      let lastBlock :=
        match (c0.lastState.getD emptyContainerState).terminated with
        | none => []
        | some t => [ "last.terminated.reason=".toList ++ t.reason.getD [],
                      "last.terminated.exitCode=".toList ++ exitCodeStr t.exitCode ]
      idBlock ++ waitingBlock ++ termBlock ++ lastBlock
  phaseBlock ++ containerBlock

/-! ### The /recommend pipeline -/

inductive CallKind
  | pod
  | events
  | logs
deriving DecidableEq

structure KContext where
  pod_summary : Str
  events : List EventRecord
  logs_tail : Str
deriving DecidableEq

structure SuccessResponse where
  alert : AlertRecord
  k8s_context : KContext
  recommendation : Str
deriving DecidableEq

structure StoredRecord where
  alert : AlertRecord
  recommendation : Str
  k8s_context : KContext
deriving DecidableEq

/-- Observable outcome of one /recommend request: the HTTP-level result
(a structured success body or the error body from the outer handler),
the row persisted to storage, the evidence bundle that was assembled,
the retrieved runbook context, and which cluster evidence client queries
the handler issued. -/
structure RecommendOutcome where
  response : Except Str SuccessResponse
  stored : Option StoredRecord
  evidence : KContext
  runbookCtx : Str
  calls : List CallKind

def spc : Str := ' ' :: []

/-- src/main.py, recommend: extraction, guarded evidence gathering,
summarization, retrieval, completion call with error absorption, then
persistence; a storage failure escapes to the outer handler which
returns the error body. -/
def recommend (w : World) (payload : Payload) : RecommendOutcome :=
  let info := extract payload
  let pod_obj := if info.pod ≠ [] then fetch_pod w info.nspace info.pod else none
  let events := if info.pod ≠ [] then fetch_pod_events w info.nspace info.pod 15 else []
  let logs := if info.pod ≠ [] then fetch_pod_logs w info.nspace info.pod 80 else []
  let calls : List CallKind := if info.pod ≠ [] then [.pod, .events, .logs] else []
  let pod_summary := summarize_pod pod_obj
  let ctx := retrieve w.runbooks
    (info.alertname ++ spc ++ info.summary ++ spc ++ info.nspace ++ spc ++ info.severity ++ spc ++ info.pod) 2000
  let text :=
    match w.completion with
    | .ok t => t
    | .error e => "OpenAI call failed: ".toList ++ e
  let kctx : KContext := ⟨pod_summary, events, logs.take 4000⟩
  if w.storeOk then
    { response := .ok ⟨info, kctx, text⟩
      stored := some ⟨info, text, kctx⟩
      evidence := kctx
      runbookCtx := ctx
      calls := calls }
  else
    { response := .error "storage unavailable".toList
      stored := none
      evidence := kctx
      runbookCtx := ctx
      calls := calls }

/-! ### Concrete inputs used by witnesses -/

def nsS : Str := "ns".toList

def podS : Str := "p".toList

/-- A world in which every external capability fails: no token, every
query errors; storage still works. -/
def wFail : World := ⟨false, .error (), .error (), .error (), [], .ok [], true⟩

def e1 : EventItem :=
  ⟨some ( "Normal".toList), none, some ( "m1".toList), none, some ( "2024-01-01".toList), none, none⟩

def e2 : EventItem :=
  ⟨some ( "Warning".toList), none, some ( "m2".toList), none, none, some ( "2024-01-02".toList), none⟩

def e3 : EventItem :=
  ⟨some ( "Normal".toList), none, some ( "m3".toList), none, none, none, some ( "2024-01-03".toList)⟩

/-- A healthy world: token present, events succeed with three items
carrying the three different timestamp fields, logs succeed. -/
def wTest : World := ⟨true, .error (), .ok ⟨some [e1, e3, e2]⟩, .ok ( "log line".toList), [], .ok [], true⟩

def c3corpus : Str := "foo bar\n\nfoo baz".toList

def c3query : Str := "foo".toList

def c3chunk : Str := "foo bar".toList

/-- Payload whose single alert names a namespace but no pod. -/
def c1payload : Payload :=
  ⟨some [⟨some ⟨some ( "TestAlert".toList), none, some ( "prod".toList), none, none, none, none, none⟩, none⟩]⟩

def c1world : World := ⟨true, .ok ⟨none⟩, .ok ⟨none⟩, .ok ( "x".toList), [], .ok ( "ok".toList), true⟩

/-- A pod object whose status dict is present but carries no phase. -/
def c6pod : PodObj := ⟨some ⟨none, none⟩⟩

/-! ### C7 / C10: alert extraction -/

/-- C7: a payload with no alerts list, or an empty one, extracts to the
default record: unknown alertname, severity and namespace, empty pod,
deployment and summary, and extraction never fails. -/
theorem extract_default (p : Payload) (h : p.alerts = none ∨ p.alerts = some []) :
    extract p = ⟨unknownStr, unknownStr, unknownStr, [], [], []⟩ := by
  obtain ⟨al⟩ := p
  rcases h with h | h <;> (change al = _ at h) <;> subst h <;> rfl

theorem extract_default_witness :
    extract ⟨none⟩ = ⟨unknownStr, unknownStr, unknownStr, [], [], []⟩ :=
  extract_default ⟨none⟩ (Or.inl rfl)

/-- C10: the summary fallback fires on emptiness, not only absence —
when the first alert annotates summary with the empty string, the
extracted summary comes from the description annotation, and is empty
when the description is itself empty or absent. -/
theorem extract_summary_empty_falls_back (p : Payload) (a : Alert) (rest : List Alert)
    (hal : p.alerts = some (a :: rest))
    (hsum : (a.annotations.getD emptyAnnots).summary = some []) :
    (extract p).summary = (strOr (a.annotations.getD emptyAnnots).description []).take 500 ∧
    ((a.annotations.getD emptyAnnots).description = none ∨
        (a.annotations.getD emptyAnnots).description = some [] →
      (extract p).summary = []) := by
  have h1 : (extract p).summary =
      (strOr ((a.annotations.getD emptyAnnots).summary)
        (strOr ((a.annotations.getD emptyAnnots).description) [])).take 500 := by
    simp [extract, hal]
  rw [hsum] at h1
  have h2 : ∀ y : Str, strOr (some []) y = y := by intro y; rfl
  rw [h2] at h1
  refine ⟨h1, ?_⟩
  intro hd
  rcases hd with hd | hd <;> rw [h1, hd] <;> rfl

theorem extract_summary_empty_falls_back_witness :
    (extract ⟨some [⟨none, some ⟨some [], some ( "desc text".toList)⟩⟩]⟩).summary =
      (strOr (some ( "desc text".toList)) []).take 500 :=
  (extract_summary_empty_falls_back
    ⟨some [⟨none, some ⟨some [], some ( "desc text".toList)⟩⟩]⟩
    ⟨none, some ⟨some [], some ( "desc text".toList)⟩⟩ [] rfl rfl).1

/-! ### C2: failure isolation of the three evidence queries -/

/-- C2: whenever one of the three cluster evidence queries fails — the
credential file is absent or the request errors in any way — that
query's result is the documented empty value (none, empty list, empty
string), and the pipeline's caller still receives a structured success
response whenever storage works, so no evidence exception propagates. -/
theorem evidence_failure_isolated (w : World) (nspace pod : Str) (n tail : Nat) :
    ((w.tokenPresent = false ∨ w.podResp = .error ()) →
      fetch_pod w nspace pod = none) ∧
    ((w.tokenPresent = false ∨ w.eventsResp = .error ()) →
      fetch_pod_events w nspace pod n = []) ∧
    ((w.tokenPresent = false ∨ w.logsResp = .error ()) →
      fetch_pod_logs w nspace pod tail = []) ∧
    (∀ p : Payload, w.storeOk = true →
      ∃ resp, (recommend w p).response = Except.ok resp) := by
  refine ⟨?_, ?_, ?_, ?_⟩
  · intro h
    unfold fetch_pod k8s_get
    rcases h with h | h <;> simp [h]
  · intro h
    unfold fetch_pod_events k8s_get
    rcases h with h | h <;> simp [h]
  · intro h
    unfold fetch_pod_logs
    rcases h with h | h <;> simp [h]
  · intro p hs
    unfold recommend
    rw [hs]
    simp only [if_true]
    exact ⟨_, rfl⟩

theorem evidence_failure_isolated_witness :
    fetch_pod wFail nsS podS = none ∧
    fetch_pod_events wFail nsS podS 15 = [] ∧
    fetch_pod_logs wFail nsS podS 80 = [] ∧
    (∃ resp, (recommend wFail ⟨none⟩).response = Except.ok resp) :=
  ⟨(evidence_failure_isolated wFail nsS podS 15 80).1 (Or.inl rfl),
   (evidence_failure_isolated wFail nsS podS 15 80).2.1 (Or.inl rfl),
   (evidence_failure_isolated wFail nsS podS 15 80).2.2.1 (Or.inl rfl),
   (evidence_failure_isolated wFail nsS podS 15 80).2.2.2 ⟨none⟩ rfl⟩

/-! ### C8: completion-service failure degradation -/

/-- C8: when the completion call fails with message e and storage works,
the pipeline substitutes the descriptive error string as the
recommendation text, still returns the structured success response
carrying the extracted alert, and still persists a record carrying the
same substituted text. -/
theorem completion_failure_degrades (w : World) (p : Payload) (e : Str)
    (hc : w.completion = .error e) (hs : w.storeOk = true) :
    (∃ resp, (recommend w p).response = Except.ok resp ∧
      resp.alert = extract p ∧
      resp.recommendation = "OpenAI call failed: ".toList ++ e) ∧
    (∃ rec, (recommend w p).stored = some rec ∧
      rec.recommendation = "OpenAI call failed: ".toList ++ e) := by
  unfold recommend
  rw [hc, hs]
  simp only [if_true]
  exact ⟨⟨_, rfl, rfl, rfl⟩, ⟨_, rfl, rfl⟩⟩

def c8world : World := ⟨false, .error (), .error (), .error (), [], .error ( "boom".toList), true⟩

theorem completion_failure_degrades_witness :
    (∃ resp, (recommend c8world ⟨none⟩).response = Except.ok resp ∧
      resp.alert = extract ⟨none⟩ ∧
      resp.recommendation = "OpenAI call failed: ".toList ++ "boom".toList) ∧
    (∃ rec, (recommend c8world ⟨none⟩).stored = some rec ∧
      rec.recommendation = "OpenAI call failed: ".toList ++ "boom".toList) :=
  completion_failure_degrades c8world ⟨none⟩ ( "boom".toList) rfl rfl

/-! ### C1: empty pod name skips all evidence gathering -/

/-- C1 counterexample: on an alert with no pod label the bundle's
resource summary is the literal "(pod not fetched)", not the claimed
literal "(resource not fetched)". -/
theorem empty_pod_sentinel_counterexample :
    (extract c1payload).pod = [] ∧
    (recommend c1world c1payload).evidence.pod_summary ≠ "(resource not fetched)".toList ∧
    (recommend c1world c1payload).evidence.pod_summary = "(pod not fetched)".toList := by
  refine ⟨rfl, ?_, rfl⟩
  decide

/-- C1 (amended): for every alert whose extracted pod name is empty, the
handler issues zero cluster evidence client calls and assembles a bundle
with an empty events list, an empty log tail, and the sentinel summary
"(pod not fetched)". -/
theorem empty_pod_skips_evidence (w : World) (p : Payload)
    (h : (extract p).pod = []) :
    (recommend w p).calls = [] ∧
    (recommend w p).evidence.events = [] ∧
    (recommend w p).evidence.logs_tail = [] ∧
    (recommend w p).evidence.pod_summary = "(pod not fetched)".toList := by
  cases hs : w.storeOk <;>
    simp [recommend, h, hs, summarize_pod]

theorem empty_pod_skips_evidence_witness :
    (recommend c1world c1payload).calls = [] ∧
    (recommend c1world c1payload).evidence.events = [] ∧
    (recommend c1world c1payload).evidence.logs_tail = [] ∧
    (recommend c1world c1payload).evidence.pod_summary = "(pod not fetched)".toList :=
  empty_pod_skips_evidence c1world c1payload rfl

/-! ### C6: summarizer line structure -/

/-- C6 counterexample: a pod whose status is present but whose phase key
is absent still renders the phase line, with an empty value — absent
scalar fields are not omitted. -/
theorem summarizer_renders_absent_phase :
    (c6pod.status.getD emptyPodStatus).phase = none ∧
    pod_lines c6pod = [ "phase=".toList ] ∧
    summarize_pod (some c6pod) = "phase=".toList := by
  exact ⟨rfl, rfl, rfl⟩

/-- Helper: the line list built by summarize_pod equals its block-wise
description. -/
lemma pod_lines_eq_spec (p : PodObj) : pod_lines p = pod_lines_spec p := by
  obtain ⟨st⟩ := p
  rcases st with _ | ⟨ph, csOpt⟩
  · rfl
  rcases csOpt with _ | cs
  · rfl
  rcases cs with _ | ⟨c0, rest⟩
  · rfl
  obtain ⟨nm, rc, stateOpt, lastOpt⟩ := c0
  rcases stateOpt with _ | ⟨wOpt, tOpt⟩ <;>
    rcases lastOpt with _ | ⟨lwOpt, ltOpt⟩ <;>
    first
      | rfl
      | (rcases ltOpt with _ | lt <;> rfl)
      | (rcases wOpt with _ | wv <;> rcases tOpt with _ | tv <;> rfl)
      | (rcases wOpt with _ | wv <;> rcases tOpt with _ | tv <;>
          rcases ltOpt with _ | lt <;> rfl)

/-- C6 (amended): the summary is the 2000-char truncation of the
newline-joined fixed-order blocks: the phase line always, then — only
when a container status is reported — the container identity lines and
the waiting, terminated and last-terminated blocks, each appearing
exactly when its key is present; scalar fields inside an emitted block
render with empty or default values when absent. -/
theorem summarize_pod_blocks (p : PodObj) :
    summarize_pod (some p) = (List.intercalate ('\n' :: []) (pod_lines_spec p)).take 2000 := by
  rw [summarize_pod, pod_lines_eq_spec]

/-! ### C5: truncation invariants -/

lemma length_take_le (l : Str) (n : Nat) : (l.take n).length ≤ n := by
  rw [List.length_take]
  exact Nat.min_le_left _ _

lemma fetch_pod_logs_len (w : World) (nspace pod : Str) (tail : Nat) :
    (fetch_pod_logs w nspace pod tail).length ≤ 4000 := by
  unfold fetch_pod_logs
  split
  · simp
  split
  · simp
  split <;> simp [length_take_le]

lemma event_message_len (w : World) (nspace pod : Str) (n : Nat) :
    ∀ r ∈ fetch_pod_events w nspace pod n, r.message.length ≤ 300 := by
  intro r hr
  unfold fetch_pod_events at hr
  split at hr
  · simp at hr
  · rcases List.mem_map.mp hr with ⟨e, _, he⟩
    rw [← he]
    exact length_take_le _ _

lemma summarize_pod_len (pod_obj : Option PodObj) :
    (summarize_pod pod_obj).length ≤ 2000 := by
  cases pod_obj with
  | none => decide
  | some p => exact length_take_le _ _

lemma extract_summary_len (p : Payload) : (extract p).summary.length ≤ 500 :=
  length_take_le _ _

lemma retrieve_len (runbooks q : Str) (max_chars : Nat) :
    (retrieve runbooks q max_chars).length ≤ max_chars := by
  unfold retrieve
  by_cases h : ((splitOn2NL runbooks).foldl (retrieveStep (tokSet q)) ([], 0)).1 = []
  · simp [h]
  · simp [h, length_take_le]

/-- C5: all documented size bounds hold — the log tail is at most 4000
characters, each event message at most 300, the resource summary at
most 2000, the extracted alert summary at most 500, and the retrieved
runbook snippet at most the max-chars argument. -/
theorem truncation_invariants :
    (∀ (w : World) (nspace pod : Str) (tail : Nat),
      (fetch_pod_logs w nspace pod tail).length ≤ 4000) ∧
    (∀ (w : World) (nspace pod : Str) (n : Nat),
      ∀ r ∈ fetch_pod_events w nspace pod n, r.message.length ≤ 300) ∧
    (∀ pod_obj : Option PodObj, (summarize_pod pod_obj).length ≤ 2000) ∧
    (∀ p : Payload, (extract p).summary.length ≤ 500) ∧
    (∀ (runbooks q : Str) (max_chars : Nat),
      (retrieve runbooks q max_chars).length ≤ max_chars) :=
  ⟨fetch_pod_logs_len, event_message_len, summarize_pod_len, extract_summary_len, retrieve_len⟩

theorem truncation_invariants_witness :
    (fetch_pod_logs wTest nsS podS 80).length ≤ 4000 ∧
    (mkEventRecord e3).message.length ≤ 300 ∧
    (summarize_pod (some c6pod)).length ≤ 2000 ∧
    (extract c1payload).summary.length ≤ 500 ∧
    (retrieve c3corpus c3query 2000).length ≤ 2000 :=
  ⟨truncation_invariants.1 wTest nsS podS 80,
   truncation_invariants.2.1 wTest nsS podS 15 (mkEventRecord e3) (by decide),
   truncation_invariants.2.2.1 (some c6pod),
   truncation_invariants.2.2.2.1 c1payload,
   truncation_invariants.2.2.2.2 c3corpus c3query 2000⟩

/-! ### C4: event ordering -/

lemma strLe_total (a : Str) : ∀ b, strLe a b = true ∨ strLe b a = true := by
  induction a with
  | nil => intro b; left; rfl
  | cons x xs ih =>
    intro b
    cases b with
    | nil => right; rfl
    | cons y ys =>
      rcases Nat.lt_trichotomy x.toNat y.toNat with h | h | h
      · left; simp [strLe, h]
      · have hx : ¬ x.toNat < y.toNat := by omega
        have hy : ¬ y.toNat < x.toNat := by omega
        rcases ih ys with h2 | h2
        · left; simp [strLe, hx, hy, h2]
        · right; simp [strLe, hx, hy, h2]
      · right; simp [strLe, h]

lemma strLe_trans (a : Str) : ∀ b c, strLe a b = true → strLe b c = true → strLe a c = true := by
  induction a with
  | nil => intro b c _ _; rfl
  | cons x xs ih =>
    intro b c hab hbc
    cases b with
    | nil => simp [strLe] at hab
    | cons y ys =>
      cases c with
      | nil => simp [strLe] at hbc
      | cons z zs =>
        simp only [strLe] at hab hbc ⊢
        rcases Nat.lt_trichotomy x.toNat z.toNat with hxz | hxz | hxz
        · simp [hxz]
        · rw [if_neg (by omega), if_neg (by omega)]
          rcases Nat.lt_trichotomy x.toNat y.toNat with hxy | hxy | hxy
          · rw [if_neg (by omega), if_pos (by omega)] at hbc
            exact absurd hbc (by simp)
          · rw [if_neg (by omega), if_neg (by omega)] at hab
            rw [if_neg (by omega), if_neg (by omega)] at hbc
            exact ih ys zs hab hbc
          · rw [if_neg (by omega), if_pos (by omega)] at hab
            exact absurd hab (by simp)
        · rcases Nat.lt_trichotomy x.toNat y.toNat with hxy | hxy | hxy
          · rcases Nat.lt_trichotomy y.toNat z.toNat with hyz | hyz | hyz
            · omega
            · omega
            · rw [if_neg (by omega), if_pos (by omega)] at hbc
              exact absurd hbc (by simp)
          · rcases Nat.lt_trichotomy y.toNat z.toNat with hyz | hyz | hyz
            · omega
            · omega
            · rw [if_neg (by omega), if_pos (by omega)] at hbc
              exact absurd hbc (by simp)
          · rw [if_neg (by omega), if_pos (by omega)] at hab
            exact absurd hab (by simp)

instance evDescIsTotal : IsTotal EventItem evDesc :=
  ⟨fun a b => strLe_total (ts b) (ts a)⟩

instance evDescIsTrans : IsTrans EventItem evDesc :=
  ⟨fun _ b _ hab hbc => strLe_trans _ (ts b) _ hbc hab⟩

/-- C4: the event fetcher returns at most max-items records, ordered
descending by the recency key — lastTimestamp, falling back to
eventTime, then firstTimestamp — and returns the empty sequence
whenever the query fails. -/
theorem fetch_pod_events_ordered (w : World) (nspace pod : Str) (n : Nat) :
    (fetch_pod_events w nspace pod n).length ≤ n ∧
    (fetch_pod_events w nspace pod n).Pairwise
      (fun a b => strLe b.lastTimestamp a.lastTimestamp = true) ∧
    ((w.tokenPresent = false ∨ w.eventsResp = .error ()) →
      fetch_pod_events w nspace pod n = []) := by
  refine ⟨?_, ?_, ?_⟩
  · unfold fetch_pod_events
    split
    · simp
    · rw [List.length_map, List.length_take]
      exact Nat.min_le_left _ _
  · unfold fetch_pod_events
    split
    · simp
    · rw [List.pairwise_map]
      have hs := List.sorted_insertionSort evDesc
        (((k8s_get w.tokenPresent w.eventsResp).getD ⟨none⟩).items.getD [])
      exact List.Pairwise.take hs
  · intro h
    unfold fetch_pod_events k8s_get
    rcases h with h | h <;> simp [h]

theorem fetch_pod_events_ordered_witness :
    (fetch_pod_events wTest nsS podS 15).length ≤ 15 ∧
    (fetch_pod_events wTest nsS podS 15).Pairwise
      (fun a b => strLe b.lastTimestamp a.lastTimestamp = true) ∧
    fetch_pod_events wFail nsS podS 15 = [] :=
  ⟨(fetch_pod_events_ordered wTest nsS podS 15).1,
   (fetch_pod_events_ordered wTest nsS podS 15).2.1,
   (fetch_pod_events_ordered wFail nsS podS 15).2.2 (Or.inl rfl)⟩

/-! ### C3: best-passage selection -/

/-- Invariant of the best-passage scan: the fold either keeps the start
accumulator, when no chunk strictly beats it, or lands on the earliest
chunk of strictly maximal score among those beating the start. -/
lemma foldl_retrieveStep_spec (qt : Finset Str) (l : List Str) :
    ∀ acc : Str × Nat,
      (l.foldl (retrieveStep qt) acc = acc ∧ ∀ c ∈ l, score qt c ≤ acc.2) ∨
      (∃ i, ∃ hi : i < l.length,
        l.foldl (retrieveStep qt) acc = (l[i], score qt l[i]) ∧
        acc.2 < score qt l[i] ∧
        (∀ j, ∀ hj : j < l.length, j < i → score qt l[j] < score qt l[i]) ∧
        (∀ j, ∀ hj : j < l.length, score qt l[j] ≤ score qt l[i])) := by
  induction l with
  | nil =>
    intro acc
    left
    exact ⟨rfl, by simp⟩
  | cons c t ih =>
    intro acc
    by_cases hc : acc.2 < score qt c
    · have hstep : retrieveStep qt acc c = (c, score qt c) := by
        simp [retrieveStep, hc]
      have hfold : (c :: t).foldl (retrieveStep qt) acc
          = t.foldl (retrieveStep qt) (c, score qt c) := by
        rw [List.foldl_cons, hstep]
      rcases ih (c, score qt c) with ⟨heq, hall⟩ | ⟨i, hi, heq, hlt, hfirst, hmax⟩
      · right
        refine ⟨0, by simp, ?_, hc, ?_, ?_⟩
        · rw [hfold, heq]; simp
        · intro j hj hj0
          exact absurd hj0 (Nat.not_lt_zero j)
        · intro j hj
          cases j with
          | zero => simp
          | succ k =>
            have hk : k < t.length := by simpa using hj
            have := hall t[k] (List.getElem_mem hk)
            simpa using this
      · right
        refine ⟨i + 1, by simpa using Nat.succ_lt_succ hi, ?_, ?_, ?_, ?_⟩
        · rw [hfold, heq]; simp
        · have : (score qt c) < score qt t[i] := hlt
          simpa using lt_trans hc this
        · intro j hj hji
          cases j with
          | zero => simpa using hlt
          | succ k =>
            have hk : k < t.length := by simpa using hj
            have hki : k < i := Nat.lt_of_succ_lt_succ hji
            simpa using hfirst k hk hki
        · intro j hj
          cases j with
          | zero => simpa using le_of_lt hlt
          | succ k =>
            have hk : k < t.length := by simpa using hj
            simpa using hmax k hk
    · have hstep : retrieveStep qt acc c = acc := by
        simp [retrieveStep, hc]
      have hfold : (c :: t).foldl (retrieveStep qt) acc
          = t.foldl (retrieveStep qt) acc := by
        rw [List.foldl_cons, hstep]
      rcases ih acc with ⟨heq, hall⟩ | ⟨i, hi, heq, hlt, hfirst, hmax⟩
      · left
        refine ⟨by rw [hfold, heq], ?_⟩
        intro c' hc'
        rcases List.mem_cons.mp hc' with h | h
        · subst h; exact Nat.not_lt.mp hc
        · exact hall c' h
      · right
        refine ⟨i + 1, by simpa using Nat.succ_lt_succ hi, ?_, hlt, ?_, ?_⟩
        · rw [hfold, heq]; simp
        · intro j hj hji
          cases j with
          | zero =>
            simpa using lt_of_le_of_lt (Nat.not_lt.mp hc) hlt
          | succ k =>
            have hk : k < t.length := by simpa using hj
            have hki : k < i := Nat.lt_of_succ_lt_succ hji
            simpa using hfirst k hk hki
        · intro j hj
          cases j with
          | zero =>
            simpa using le_of_lt (lt_of_le_of_lt (Nat.not_lt.mp hc) hlt)
          | succ k =>
            have hk : k < t.length := by simpa using hj
            simpa using hmax k hk

lemma score_pos_ne_nil (qt : Finset Str) (c : Str) (h : 0 < score qt c) : c ≠ [] := by
  intro h0
  subst h0
  simp [score, tokSet, tokens, tokensAux, lower] at h

/-- C3: retrieve returns the empty string when no passage shares a token
with the query, and otherwise returns, truncated to max-chars, the
earliest passage of strictly maximal token-overlap score. -/
theorem retrieve_best_passage (runbooks q : Str) (max_chars : Nat) :
    ((∀ c ∈ splitOn2NL runbooks, score (tokSet q) c = 0) →
      retrieve runbooks q max_chars = []) ∧
    (∀ c0 ∈ splitOn2NL runbooks, 0 < score (tokSet q) c0 →
      ∃ i, ∃ hi : i < (splitOn2NL runbooks).length,
        retrieve runbooks q max_chars = ((splitOn2NL runbooks)[i]).take max_chars ∧
        (∀ j, ∀ hj : j < (splitOn2NL runbooks).length,
          score (tokSet q) (splitOn2NL runbooks)[j] ≤ score (tokSet q) (splitOn2NL runbooks)[i]) ∧
        (∀ j, ∀ hj : j < (splitOn2NL runbooks).length, j < i →
          score (tokSet q) (splitOn2NL runbooks)[j] < score (tokSet q) (splitOn2NL runbooks)[i])) := by
  constructor
  · intro hall0
    rcases foldl_retrieveStep_spec (tokSet q) (splitOn2NL runbooks) ([], 0)
      with ⟨heq, _⟩ | ⟨i, hi, _, hlt, _, _⟩
    · unfold retrieve
      rw [heq]
      simp
    · have := hall0 (splitOn2NL runbooks)[i] (List.getElem_mem hi)
      omega
  · intro c0 hc0 hpos
    rcases foldl_retrieveStep_spec (tokSet q) (splitOn2NL runbooks) ([], 0)
      with ⟨_, hall⟩ | ⟨i, hi, heq, hlt, hfirst, hmax⟩
    · have := hall c0 hc0
      omega
    · refine ⟨i, hi, ?_, hmax, hfirst⟩
      have hne : (splitOn2NL runbooks)[i] ≠ [] :=
        score_pos_ne_nil (tokSet q) _ (by simpa using hlt)
      unfold retrieve
      rw [heq]
      simp [hne]

theorem retrieve_best_passage_witness :
    ∃ i, ∃ hi : i < (splitOn2NL c3corpus).length,
      retrieve c3corpus c3query 2000 = ((splitOn2NL c3corpus)[i]).take 2000 ∧
      (∀ j, ∀ hj : j < (splitOn2NL c3corpus).length,
        score (tokSet c3query) (splitOn2NL c3corpus)[j] ≤ score (tokSet c3query) (splitOn2NL c3corpus)[i]) ∧
      (∀ j, ∀ hj : j < (splitOn2NL c3corpus).length, j < i →
        score (tokSet c3query) (splitOn2NL c3corpus)[j] < score (tokSet c3query) (splitOn2NL c3corpus)[i]) :=
  (retrieve_best_passage c3corpus c3query 2000).2 c3chunk (by decide) (by decide)

/-! ### C9: query-token-set invariance of retrieval -/

lemma retrieve_congr_tokSet (r q q' : Str) (n : Nat) (h : tokSet q' = tokSet q) :
    retrieve r q' n = retrieve r q n := by
  unfold retrieve
  rw [h]

lemma tokens_congr_lower (q q' : Str) (h : lower q' = lower q) : tokens q' = tokens q := by
  unfold tokens
  rw [h]

/-- Splitting the scan at a space separator. -/
lemma tokensAux_append_space (ys : Str) :
    ∀ (xs cur : Str), tokensAux (xs ++ ' ' :: ys) cur = tokensAux xs cur ++ tokensAux ys [] := by
  intro xs
  induction xs with
  | nil =>
    intro cur
    cases cur with
    | nil => rfl
    | cons c cs =>
      show tokensAux (' ' :: ys) (c :: cs) = tokensAux [] (c :: cs) ++ tokensAux ys []
      simp [tokensAux, isTokChar]
  | cons c xs ih =>
    intro cur
    show tokensAux (c :: (xs ++ ' ' :: ys)) cur = tokensAux (c :: xs) cur ++ tokensAux ys []
    by_cases hc : isTokChar c
    · simp only [tokensAux, hc, if_true]
      exact ih (c :: cur)
    · by_cases hcur : cur = []
      · simp only [tokensAux, hc, hcur, if_false, if_true]
        exact ih []
      · simp only [tokensAux]
        rw [if_neg hc, if_neg hc, if_neg hcur, if_neg hcur, ih []]
        rfl

/-- Every token the scanner emits is a nonempty run of token characters
(provided the run in progress is one). -/
lemma tokensAux_tokens_wf :
    ∀ (s cur : Str), (∀ c ∈ cur, isTokChar c = true) →
      ∀ t ∈ tokensAux s cur, t ≠ [] ∧ ∀ c ∈ t, isTokChar c = true := by
  intro s
  induction s with
  | nil =>
    intro cur hcur t ht
    unfold tokensAux at ht
    by_cases hc : cur = []
    · simp [hc] at ht
    · rw [if_neg hc] at ht
      rcases List.mem_singleton.mp ht with rfl
      refine ⟨by simpa using hc, ?_⟩
      intro c hcm
      exact hcur c (List.mem_reverse.mp hcm)
  | cons x s ih =>
    intro cur hcur t ht
    unfold tokensAux at ht
    by_cases hx : isTokChar x
    · rw [if_pos hx] at ht
      refine ih (x :: cur) ?_ t ht
      intro c hcm
      rcases List.mem_cons.mp hcm with rfl | hcm
      · exact hx
      · exact hcur c hcm
    · rw [if_neg hx] at ht
      by_cases hc : cur = []
      · rw [if_pos hc] at ht
        exact ih [] (by simp) t ht
      · rw [if_neg hc] at ht
        rcases List.mem_cons.mp ht with rfl | ht
        · refine ⟨by simpa using hc, ?_⟩
          intro c hcm
          exact hcur c (List.mem_reverse.mp hcm)
        · exact ih [] (by simp) t ht

lemma lowerChar_fixed (c : Char) (h : isTokChar c = true) : lowerChar c = c := by
  unfold lowerChar
  rw [if_neg]
  simp only [isTokChar, Bool.or_eq_true, Bool.and_eq_true, decide_eq_true_eq] at h
  omega

lemma lower_fixed (t : Str) (h : ∀ c ∈ t, isTokChar c = true) : lower t = t := by
  induction t with
  | nil => rfl
  | cons c t ih =>
    unfold lower at ih ⊢
    rw [List.map_cons, lowerChar_fixed c (h c (by simp)), ih]
    intro c' hc'
    exact h c' (List.mem_cons_of_mem _ hc')

/-- The scanner output on a single nonempty all-token-character run. -/
lemma tokensAux_run (t : Str) (h : ∀ c ∈ t, isTokChar c = true) :
    ∀ cur, tokensAux t cur = if cur.reverse ++ t = [] then [] else [cur.reverse ++ t] := by
  induction t with
  | nil =>
    intro cur
    unfold tokensAux
    by_cases hc : cur = []
    · simp [hc]
    · rw [if_neg hc, List.append_nil, if_neg (by simpa using hc)]
  | cons c t ih =>
    intro cur
    unfold tokensAux
    rw [if_pos (h c (by simp))]
    rw [ih (fun c' hc' => h c' (List.mem_cons_of_mem _ hc')) (c :: cur)]
    have h1 : (c :: cur).reverse ++ t = cur.reverse ++ c :: t := by
      simp
    rw [h1]

/-- A token of q tokenizes to itself. -/
lemma tokens_self (q t : Str) (h : t ∈ tokens q) : tokens t = [t] := by
  have hwf := tokensAux_tokens_wf (lower q) [] (by simp) t h
  unfold tokens
  rw [lower_fixed t hwf.2, tokensAux_run t hwf.2 []]
  simp [hwf.1]

/-- Appending a space and an already-present token leaves the token set
unchanged. -/
lemma tokSet_append_dup (q t : Str) (h : t ∈ tokens q) :
    tokSet (q ++ ' ' :: t) = tokSet q := by
  have hwf := tokensAux_tokens_wf (lower q) [] (by simp) t h
  have hl : lower (q ++ ' ' :: t) = lower q ++ ' ' :: lower t := by
    unfold lower
    simp [lowerChar]
  have htok : tokens (q ++ ' ' :: t) = tokens q ++ [t] := by
    unfold tokens
    rw [hl, lower_fixed t hwf.2, tokensAux_append_space t (lower q) []]
    rw [tokensAux_run t hwf.2 []]
    simp [hwf.1]
  unfold tokSet
  rw [htok, List.toFinset_append]
  simp only [List.toFinset_cons, List.toFinset_nil, insert_emptyc_eq]
  rw [Finset.union_eq_left]
  simp only [Finset.singleton_subset_iff, List.mem_toFinset]
  exact h

/-- C9: retrieval depends on the query only through its token set — it
is invariant under any change preserving the token set, in particular
under letter-case changes and under repeating an existing token. -/
theorem retrieve_query_invariance :
    (∀ (r q q' : Str) (n : Nat), tokSet q' = tokSet q →
      retrieve r q' n = retrieve r q n) ∧
    (∀ (r q q' : Str) (n : Nat), lower q' = lower q →
      retrieve r q' n = retrieve r q n) ∧
    (∀ (r q t : Str) (n : Nat), t ∈ tokens q →
      retrieve r (q ++ ' ' :: t) n = retrieve r q n) := by
  refine ⟨retrieve_congr_tokSet, ?_, ?_⟩
  · intro r q q' n h
    exact retrieve_congr_tokSet r q q' n (by unfold tokSet; rw [tokens_congr_lower q q' h])
  · intro r q t n h
    exact retrieve_congr_tokSet r q (q ++ ' ' :: t) n (tokSet_append_dup q t h)

theorem retrieve_query_invariance_witness :
    retrieve c3corpus ( "FOO".toList) 2000 = retrieve c3corpus ( "foo".toList) 2000 ∧
    retrieve c3corpus ( "foo".toList ++ ' ' :: "foo".toList) 2000
      = retrieve c3corpus ( "foo".toList) 2000 :=
  ⟨retrieve_query_invariance.2.1 c3corpus ( "foo".toList) ( "FOO".toList) 2000 (by decide),
   retrieve_query_invariance.2.2 c3corpus ( "foo".toList) ( "foo".toList) 2000 (by decide)⟩

end Aiops
